import Mathlib

/-!
Shallow embedding of the HLS tag grammar engine (`src/tag.rs`) of the
`hls_m3u8` repository.  Tag structs, their `FromStr` parsers and the
`Display` serializers used by the claims are translated from the Rust
source.  The helper modules `attribute.rs`, `string.rs` and `version.rs`
are not part of the provided sources, so the attribute-pairs tokenizer and
the value-grammar types they define are modelled from the specification
(each such definition carries a doc comment saying so).  Rust strings are
represented as `List Char` (for scanning) and `String` (for attribute
keys/values); fallible parsing is `Option`, `none` standing for the single
`InvalidInput` error kind.
-/

namespace M3u8

/-- ASCII control character test (used by the quoted-string grammar). -/
def isCtl (c : Char) : Bool := c.toNat < 32 || c.toNat == 127

/-- The character for the decimal digit `d` (`d < 10`). -/
def digitChar (d : Nat) : Char := Char.ofNat (48 + d)

/-- Numeric value of a decimal digit character. -/
def digitVal (c : Char) : Nat := c.toNat - 48

/-- Value of a list of decimal digit characters, most significant first. -/
def digitsVal (cs : List Char) : Nat := cs.foldl (fun a c => a * 10 + digitVal c) 0

/-- Decimal digit characters of `n` (fuelled helper). -/
def natCharsGo : Nat → Nat → List Char
  | 0, _ => []
  | fuel + 1, n =>
    if n < 10 then [digitChar n]
    else natCharsGo fuel (n / 10) ++ [digitChar (n % 10)]

/-- Decimal digit characters of `n`, as written by Rust's `u64` `Display`. -/
def natChars (n : Nat) : List Char := natCharsGo (n + 1) n

/-- Model of Rust `str::starts_with` followed by `split_at(p.len()).1`:
returns the remainder after the literal head `p`, or `none` when the input
does not start with `p`. -/
def stripHead? (p s : List Char) : Option (List Char) :=
  if p.isPrefixOf s then some (s.drop p.length) else none

/-- Split at the first occurrence of `c`: the part before it, and the part
after it when it occurs (`none` when `c` does not occur).  Models both
Rust `splitn(2, c)` and the scanning steps of the tokenizer. -/
def splitOnceAt (c : Char) : List Char → List Char × Option (List Char)
  | [] => ([], none)
  | x :: xs =>
    if x = c then ([], some xs)
    else
      let r := splitOnceAt c xs
      (x :: r.1, r.2)

/-- Model of Rust `str::parse::<u64>`: an optional leading `+`, then one or
more decimal digits, value below `2^64` (overflow is a parse error). -/
def parseU64 (cs : List Char) : Option Nat :=
  let ds := if cs.head? = some '+' then cs.tail else cs
  if ds ≠ [] ∧ ds.all Char.isDigit then
    if digitsVal ds < 2 ^ 64 then some (digitsVal ds) else none
  else none

/-- Model of Rust `std::time::Duration`: whole seconds plus a nanosecond
remainder. -/
structure Duration where
  secs : Nat
  nanos : Nat
deriving DecidableEq, Repr

/-- `Duration::from_secs`. -/
def Duration.fromSecs (n : Nat) : Duration := ⟨n, 0⟩

/-- Modelled from the spec: `QuotedString` (from the missing
`attribute.rs`) stores the unquoted content, guaranteed to contain no
double quote and no control character. -/
structure QuotedString where
  s : List Char
deriving DecidableEq, Repr

/-- Modelled from the spec: `QuotedString` parsing fails unless the raw
value starts and ends with `"` and the inner text has no `"` and no
control character; the unquoted content is stored. -/
def parseQuotedString (v : List Char) : Option QuotedString :=
  match v with
  | '"' :: rest =>
    if h : rest ≠ [] then
      if rest.getLast h = '"' then
        let inner := rest.dropLast
        if inner.all (fun c => c ≠ '"' && !isCtl c) then some ⟨inner⟩ else none
      else none
    else none
  | _ => none

/-- `QuotedString` serialization: the content wrapped in double quotes. -/
def QuotedString.chars (q : QuotedString) : List Char := '"' :: q.s ++ ['"']

/-- Modelled from the spec: `M3u8String` (from the missing `string.rs`) is
line-safe text, i.e. text without an embedded newline. -/
structure M3u8String where
  cs : List Char
deriving DecidableEq, Repr

/-- Modelled from the spec: `M3u8String::new` fails when the text embeds a
newline. -/
def m3u8New (cs : List Char) : Option M3u8String :=
  if cs.all (fun c => c ≠ '\n' && c ≠ '\r') then some ⟨cs⟩ else none

/-- Hexadecimal digit value, `none` for a non-hex character. -/
def hexVal? (c : Char) : Option Nat :=
  if '0' ≤ c ∧ c ≤ '9' then some (c.toNat - 48)
  else if 'a' ≤ c ∧ c ≤ 'f' then some (c.toNat - 87)
  else if 'A' ≤ c ∧ c ≤ 'F' then some (c.toNat - 55)
  else none

/-- Decode pairs of hex digits into bytes. -/
def hexBytes? : List Char → Option (List Nat)
  | [] => some []
  | [_] => none
  | a :: b :: rest =>
    match hexVal? a, hexVal? b, hexBytes? rest with
    | some x, some y, some tl => some ((x * 16 + y) :: tl)
    | _, _, _ => none

/-- Modelled from the spec: `HexadecimalSequence` (from the missing
`attribute.rs`) stores the decoded bytes of an even-length hex string. -/
structure HexadecimalSequence where
  bytes : List Nat
deriving DecidableEq, Repr

/-- Modelled from the spec: `HexadecimalSequence` parsing requires a
`0x`/`0X` head and an even-length string of hex digits. -/
def parseHexSeq (v : List Char) : Option HexadecimalSequence :=
  match v with
  | '0' :: 'x' :: rest => (hexBytes? rest).map HexadecimalSequence.mk
  | '0' :: 'X' :: rest => (hexBytes? rest).map HexadecimalSequence.mk
  | _ => none

/-- Modelled from the spec: the non-negative decimal floating-point
grammar (`DecimalFloatingPoint` of the missing `attribute.rs`, also
standing in for Rust `str::parse::<f64>` on the plain decimal literals the
format uses).  Exact rational arithmetic stands in for binary floating
point; the grammar accepted is `digits [ . digits ]`, `digits .` and
`. digits`. -/
def parseDecimalLit (cs : List Char) : Option ℚ :=
  match splitOnceAt '.' cs with
  | (intPart, none) =>
    if intPart ≠ [] ∧ intPart.all Char.isDigit then some (digitsVal intPart) else none
  | (intPart, some fracPart) =>
    if (intPart ≠ [] ∨ fracPart ≠ []) ∧ intPart.all Char.isDigit ∧
        fracPart.all Char.isDigit then
      some ((digitsVal intPart : ℚ) + (digitsVal fracPart : ℚ) / (10 : ℚ) ^ fracPart.length)
    else none

/-- Seconds-as-rational to `Duration`: whole seconds plus
`fractional_part * 1e9` truncated toward zero (the spec's
`to_duration`). -/
def ratToDuration (q : ℚ) : Duration :=
  ⟨q.floor.toNat, ((q - q.floor) * 1000000000).floor.toNat⟩

/-- Strip trailing `'0'` characters. -/
def dropTrailingZeros (cs : List Char) : List Char :=
  (cs.reverse.dropWhile (fun c => c = '0')).reverse

/-- The nanosecond remainder as a fractional digit string: nine zero-padded
digits with trailing zeros removed. -/
def nanoFracChars (n : Nat) : List Char :=
  dropTrailingZeros (List.replicate (9 - (natChars n).length) '0' ++ natChars n)

/-- Decimal rendering of a duration: the whole seconds, then a fractional
part exactly when the nanosecond remainder is non-zero (the spec's
duration formatting and `DecimalFloatingPoint::from_duration`). -/
def durationDecimalChars (d : Duration) : List Char :=
  natChars d.secs ++ (if d.nanos = 0 then [] else '.' :: nanoFracChars d.nanos)

/-- Modelled from the spec: `SignedDecimalFloatingPoint` of the missing
`attribute.rs` — the decimal grammar with an optional leading sign. -/
def parseSignedDecimalLit (cs : List Char) : Option ℚ :=
  match cs with
  | '-' :: rest => (parseDecimalLit rest).map Neg.neg
  | '+' :: rest => parseDecimalLit rest
  | _ => parseDecimalLit cs

/-- Modelled from the spec: `DecimalInteger` of the missing `attribute.rs`
— an unsigned 64-bit decimal integer. -/
structure DecimalInteger where
  val : Nat
deriving DecidableEq, Repr

/-- Modelled from the spec: `DecimalInteger` parsing accepts decimal
digits only, value below `2^64`. -/
def parseDecimalInteger (cs : List Char) : Option DecimalInteger :=
  if cs ≠ [] ∧ cs.all Char.isDigit then
    if digitsVal cs < 2 ^ 64 then some ⟨digitsVal cs⟩ else none
  else none

/-- Modelled from the spec: `DecimalResolution` of the missing
`attribute.rs` — a width and a height, both positive. -/
structure DecimalResolution where
  width : Nat
  height : Nat
deriving DecidableEq, Repr

/-- Modelled from the spec: `DecimalResolution` parsing splits once on the
first `x`/`X`; both parts must be positive decimal integers. -/
def parseDecimalResolution (cs : List Char) : Option DecimalResolution :=
  let hit := splitOnceAt 'x' cs
  let parts :=
    match hit.2 with
    | some after => some (hit.1, after)
    | none =>
      match splitOnceAt 'X' cs with
      | (before, some after) => some (before, after)
      | (_, none) => none
  match parts with
  | none => none
  | some (w, h) =>
    match parseDecimalInteger w, parseDecimalInteger h with
    | some wv, some hv =>
      if 0 < wv.val ∧ 0 < hv.val then some ⟨wv.val, hv.val⟩ else none
    | _, _ => none

/-- Modelled from the spec: `ProtocolVersion` of the missing `version.rs`
— the ordered enumeration `V1 .. V7`. -/
inductive ProtocolVersion where
  | v1 | v2 | v3 | v4 | v5 | v6 | v7
deriving DecidableEq, Repr

/-- Modelled from the spec: `ProtocolVersion` parsing maps the numerals
`1` .. `7` to the corresponding version; anything else is an error. -/
def parseProtocolVersion (cs : List Char) : Option ProtocolVersion :=
  match cs with
  | ['1'] => some .v1
  | ['2'] => some .v2
  | ['3'] => some .v3
  | ['4'] => some .v4
  | ['5'] => some .v5
  | ['6'] => some .v6
  | ['7'] => some .v7
  | _ => none

/-- An attribute pair: the raw key and the raw (still quoted) value. -/
abbrev AttrPair := String × String

/-- Modelled from the spec: one value scan of the attribute-pairs
tokenizer of the missing `attribute.rs`.  A value runs until the next
unquoted comma or the end of the input, where a `"..."` span opened by the
value's first character protects the commas inside it; an unterminated
quote is an error.  Returns the value and the input after the comma
(`none` when the value reached the end). -/
def scanValue : List Char → Option (List Char × Option (List Char))
  | '"' :: rest =>
    match splitOnceAt '"' rest with
    | (_, none) => none
    | (inside, some afterQuote) =>
      let tl := splitOnceAt ',' afterQuote
      some ('"' :: inside ++ '"' :: tl.1, tl.2)
  | cs =>
    let r := splitOnceAt ',' cs
    some (r.1, r.2)

/-- Modelled from the spec: the attribute-pairs tokenizer loop (fuelled;
each round consumes at least the `=` separator, so `length + 1` fuel
always suffices).  A key is everything up to the next `=` (missing `=` is
an error), then the value is scanned quote-aware. -/
def attrPairsGo : Nat → List Char → Option (List AttrPair)
  | _, [] => some []
  | 0, _ :: _ => none
  | fuel + 1, cs =>
    match splitOnceAt '=' cs with
    | (_, none) => none
    | (k, some rest) =>
      match scanValue rest with
      | none => none
      | some (v, none) => some [(String.mk k, String.mk v)]
      | some (v, some rem) =>
        (attrPairsGo fuel rem).map (fun ps => (String.mk k, String.mk v) :: ps)

/-- Modelled from the spec: `AttributePairs::parse` of the missing
`attribute.rs` — splits an attribute-list body into ordered
`(key, raw value)` pairs, quote-aware. -/
def attributePairs (cs : List Char) : Option (List AttrPair) :=
  attrPairsGo (cs.length + 1) cs

/-- `EncryptionMethod` of `tag.rs`. -/
inductive EncryptionMethod where
  | none | aes128 | sampleAes
deriving DecidableEq, Repr

/-- `EncryptionMethod::from_str`. -/
def parseEncryptionMethod (s : String) : Option EncryptionMethod :=
  match s with
  | "NONE" => some .none
  | "AES-128" => some .aes128
  | "SAMPLE-AES" => some .sampleAes
  | _ => Option.none

/-- `SessionEncryptionMethod` of `tag.rs` (no `NONE`). -/
inductive SessionEncryptionMethod where
  | aes128 | sampleAes
deriving DecidableEq, Repr

/-- `SessionEncryptionMethod::from_str`. -/
def parseSessionEncryptionMethod (s : String) : Option SessionEncryptionMethod :=
  match s with
  | "AES-128" => some .aes128
  | "SAMPLE-AES" => some .sampleAes
  | _ => none

/-- `MediaType` of `tag.rs`. -/
inductive MediaType where
  | audio | video | subtitles | closedCaptions
deriving DecidableEq, Repr

/-- `MediaType::from_str`. -/
def parseMediaType (s : String) : Option MediaType :=
  match s with
  | "AUDIO" => some .audio
  | "VIDEO" => some .video
  | "SUBTITLES" => some .subtitles
  | "CLOSED-CAPTIONS" => some .closedCaptions
  | _ => none

/-- `MediaType` `Display`. -/
def mediaTypeChars : MediaType → List Char
  | .audio => "AUDIO".data
  | .video => "VIDEO".data
  | .subtitles => "SUBTITLES".data
  | .closedCaptions => "CLOSED-CAPTIONS".data

/-- `YesOrNo` of `tag.rs`. -/
inductive YesOrNo where
  | yes | no
deriving DecidableEq, Repr

/-- `YesOrNo::from_str`. -/
def parseYesOrNo (s : String) : Option YesOrNo :=
  match s with
  | "YES" => some .yes
  | "NO" => some .no
  | _ => none

/-- `YesOrNo` `Display`. -/
def yesOrNoChars : YesOrNo → List Char
  | .yes => "YES".data
  | .no => "NO".data

/-- The unit type `Yes` of `tag.rs` (only the literal `YES`). -/
inductive Yes where
  | mk
deriving DecidableEq, Repr

/-- `Yes::from_str`. -/
def parseYes (s : String) : Option Yes :=
  if s = "YES" then some .mk else none

/-- `PlaylistType` of `tag.rs`. -/
inductive PlaylistType where
  | event | vod
deriving DecidableEq, Repr

/-- `PlaylistType::from_str`. -/
def parsePlaylistType (s : String) : Option PlaylistType :=
  match s with
  | "EVENT" => some .event
  | "VOD" => some .vod
  | _ => none

/-- `HdcpLevel` of `tag.rs`. -/
inductive HdcpLevel where
  | type0 | none
deriving DecidableEq, Repr

/-- `HdcpLevel::from_str`. -/
def parseHdcpLevel (s : String) : Option HdcpLevel :=
  match s with
  | "TYPE-0" => some .type0
  | "NONE" => some .none
  | _ => Option.none

/-- `ClosedCaptions` of `tag.rs`. -/
inductive ClosedCaptions where
  | groupId (g : QuotedString)
  | none
deriving DecidableEq, Repr

/-- `ClosedCaptions::from_str`. -/
def parseClosedCaptions (s : String) : Option ClosedCaptions :=
  if s = "NONE" then some .none
  else (parseQuotedString s.data).map ClosedCaptions.groupId

/-- Does some pair of the list carry the key `k`? -/
def hasKey (k : String) (ps : List AttrPair) : Bool :=
  ps.any fun p => decide (p.1 = k)

/-- How many pairs of the list carry the key `k`? -/
def countKey (k : String) (ps : List AttrPair) : Nat :=
  ps.countP fun p => decide (p.1 = k)

/-- `ExtM3u` of `tag.rs`. -/
structure ExtM3u where
deriving DecidableEq, Repr

/-- `ExtM3u::from_str`: the line must equal the literal `#EXTM3U`. -/
def extM3uFromStr (s : List Char) : Option ExtM3u :=
  if s = "#EXTM3U".data then some ⟨⟩ else none

/-- `ExtXVersion` of `tag.rs`. -/
structure ExtXVersion where
  version : ProtocolVersion
deriving DecidableEq, Repr

/-- `ExtXVersion::from_str`. -/
def extXVersionFromStr (s : List Char) : Option ExtXVersion :=
  (stripHead? "#EXT-X-VERSION:".data s).bind fun rest =>
    (parseProtocolVersion rest).map ExtXVersion.mk

/-- `ExtInf` of `tag.rs`. -/
structure ExtInf where
  duration : Duration
  title : Option M3u8String
deriving DecidableEq, Repr

/-- The `ExtInf` duration: the token parsed as a float, then
`Duration::new(d as u64, (d.fract() * 1e9) as u32)` (truncation toward
zero, modelled over exact rationals). -/
def parseExtInfDuration (cs : List Char) : Option Duration :=
  (parseDecimalLit cs).map ratToDuration

/-- `ExtInf::from_str`: after the `#EXTINF:` head, `splitn(2, ',')` —
the part before the first comma is the duration, the entire remainder
after it (when a comma is present) is the title. -/
def extInfFromStr (s : List Char) : Option ExtInf :=
  (stripHead? "#EXTINF:".data s).bind fun rest =>
    (parseExtInfDuration (splitOnceAt ',' rest).1).bind fun d =>
      match (splitOnceAt ',' rest).2 with
      | none => some ⟨d, none⟩
      | some t => (m3u8New t).map fun title => ⟨d, some title⟩

/-- `ExtInf` `Display`: the head, the duration as a decimal, then a comma
and the title verbatim when a title is present. -/
def extInfChars (e : ExtInf) : List Char :=
  "#EXTINF:".data ++ durationDecimalChars e.duration ++
    (match e.title with
     | none => []
     | some t => ',' :: t.cs)

/-- `ExtXByteRange` of `tag.rs`. -/
structure ExtXByteRange where
  length : Nat
  offset : Option Nat
deriving DecidableEq, Repr

/-- `ExtXByteRange::from_str`: `splitn(2, '@')`, both parts `usize`. -/
def extXByteRangeFromStr (s : List Char) : Option ExtXByteRange :=
  (stripHead? "#EXT-X-BYTERANGE:".data s).bind fun rest =>
    let sp := splitOnceAt '@' rest
    (parseU64 sp.1).bind fun len =>
      match sp.2 with
      | none => some ⟨len, none⟩
      | some off => (parseU64 off).map fun o => ⟨len, some o⟩

/-- `ExtXDiscontinuity` of `tag.rs`. -/
structure ExtXDiscontinuity where
deriving DecidableEq, Repr

/-- `ExtXDiscontinuity::from_str`: the line must equal
`#EXT-X-DISCONTINUITY` exactly. -/
def extXDiscontinuityFromStr (s : List Char) : Option ExtXDiscontinuity :=
  if s = "#EXT-X-DISCONTINUITY".data then some ⟨⟩ else none

/-- `ExtXKey` of `tag.rs`. -/
structure ExtXKey where
  method : EncryptionMethod
  uri : Option QuotedString
  iv : Option HexadecimalSequence
  key_format : Option QuotedString
  key_format_versions : Option QuotedString
deriving DecidableEq, Repr

/-- `ExtXKey::compatibility_version`. -/
def ExtXKey.compatibility_version (k : ExtXKey) : ProtocolVersion :=
  if k.key_format.isSome || k.key_format_versions.isSome then .v5
  else if k.iv.isSome then .v2
  else .v1

/-- The mutable attribute state of `ExtXKey::from_str`. -/
structure KeyState where
  method : Option EncryptionMethod
  uri : Option QuotedString
  iv : Option HexadecimalSequence
  key_format : Option QuotedString
  key_format_versions : Option QuotedString
deriving DecidableEq, Repr

/-- The empty `ExtXKey::from_str` state. -/
def initKeyState : KeyState := ⟨none, none, none, none, none⟩

/-- One loop iteration of `ExtXKey::from_str`: a recognized key that was
already set is a duplicate-attribute error, an unrecognized key is
ignored. -/
def keyStep (st : KeyState) (p : AttrPair) : Option KeyState :=
  if p.1 = "METHOD" then
    if st.method.isSome then none
    else (parseEncryptionMethod p.2).map fun m => { st with method := some m }
  else if p.1 = "URI" then
    if st.uri.isSome then none
    else (parseQuotedString p.2.data).map fun v => { st with uri := some v }
  else if p.1 = "IV" then
    if st.iv.isSome then none
    else (parseHexSeq p.2.data).map fun v => { st with iv := some v }
  else if p.1 = "KEYFORMAT" then
    if st.key_format.isSome then none
    else (parseQuotedString p.2.data).map fun v => { st with key_format := some v }
  else if p.1 = "KEYFORMATVERSIONS" then
    if st.key_format_versions.isSome then none
    else (parseQuotedString p.2.data).map fun v => { st with key_format_versions := some v }
  else some st

/-- The `ExtXKey::from_str` attribute loop. -/
def keyFold : List AttrPair → KeyState → Option KeyState
  | [], st => some st
  | p :: ps, st => (keyStep st p).bind (keyFold ps)

/-- The final checks of `ExtXKey::from_str`: `METHOD` is required;
`METHOD=NONE` forbids a URI, any other method requires one. -/
def mkKey (st : KeyState) : Option ExtXKey :=
  match st.method with
  | none => none
  | some m =>
    if m = EncryptionMethod.none then
      if st.uri = none then
        some ⟨m, st.uri, st.iv, st.key_format, st.key_format_versions⟩
      else none
    else
      if st.uri.isSome then
        some ⟨m, st.uri, st.iv, st.key_format, st.key_format_versions⟩
      else none

/-- `ExtXKey::from_str` after tokenization. -/
def extXKeyOfPairs (ps : List AttrPair) : Option ExtXKey :=
  (keyFold ps initKeyState).bind mkKey

/-- `ExtXKey::from_str`. -/
def extXKeyFromStr (s : List Char) : Option ExtXKey :=
  (stripHead? "#EXT-X-KEY:".data s).bind fun rest =>
    (attributePairs rest).bind extXKeyOfPairs

/-- `ExtXMap` of `tag.rs`. -/
structure ExtXMap where
  uri : QuotedString
  byte_range : Option QuotedString
deriving DecidableEq, Repr

/-- The mutable attribute state of `ExtXMap::from_str`. -/
structure MapState where
  uri : Option QuotedString
  byte_range : Option QuotedString
deriving DecidableEq, Repr

/-- One loop iteration of `ExtXMap::from_str` (duplicates are errors). -/
def mapStep (st : MapState) (p : AttrPair) : Option MapState :=
  match p.1 with
  | "URI" =>
    match st.uri with
    | some _ => none
    | none => (parseQuotedString p.2.data).map fun v => { st with uri := some v }
  | "BYTERANGE" =>
    match st.byte_range with
    | some _ => none
    | none => (parseQuotedString p.2.data).map fun v => { st with byte_range := some v }
  | _ => some st

/-- The `ExtXMap::from_str` attribute loop. -/
def mapFold : List AttrPair → MapState → Option MapState
  | [], st => some st
  | p :: ps, st => (mapStep st p).bind (mapFold ps)

/-- `ExtXMap::from_str`. -/
def extXMapFromStr (s : List Char) : Option ExtXMap :=
  (stripHead? "#EXT-X-MAP:".data s).bind fun rest =>
    (attributePairs rest).bind fun ps =>
      (mapFold ps ⟨none, none⟩).bind fun st =>
        match st.uri with
        | none => none
        | some u => some ⟨u, st.byte_range⟩

/-- `ExtXProgramDateTime` of `tag.rs`: the raw date-time text. -/
structure ExtXProgramDateTime where
  date_time_msec : List Char
deriving DecidableEq, Repr

/-- `ExtXProgramDateTime::from_str`: requires the literal head, stores the
remainder verbatim with no validation. -/
def extXProgramDateTimeFromStr (s : List Char) : Option ExtXProgramDateTime :=
  (stripHead? "#EXT-X-PROGRAM-DATE-TIME:".data s).map ExtXProgramDateTime.mk

/-- `ExtXDateRange` of `tag.rs` (`classAttr` stands for the Rust field
`class`, a reserved word here). -/
structure ExtXDateRange where
  id : QuotedString
  classAttr : Option QuotedString
  start_date : QuotedString
  end_date : Option QuotedString
  duration : Option Duration
  planned_duration : Option Duration
  scte35_cmd : Option QuotedString
  scte35_out : Option QuotedString
  scte35_in : Option QuotedString
  end_on_next : Option Yes
deriving DecidableEq, Repr

/-- The mutable attribute state of `ExtXDateRange::from_str`. -/
structure DRState where
  id : Option QuotedString
  classAttr : Option QuotedString
  start_date : Option QuotedString
  end_date : Option QuotedString
  duration : Option Duration
  planned_duration : Option Duration
  scte35_cmd : Option QuotedString
  scte35_out : Option QuotedString
  scte35_in : Option QuotedString
  end_on_next : Option Yes
deriving DecidableEq, Repr

/-- The empty `ExtXDateRange::from_str` state. -/
def initDRState : DRState :=
  ⟨none, none, none, none, none, none, none, none, none, none⟩

/-- One loop iteration of `ExtXDateRange::from_str`: recognized keys are
overwritten without a duplicate check, unrecognized keys are ignored. -/
def drStep (st : DRState) (p : AttrPair) : Option DRState :=
  match p.1 with
  | "ID" => (parseQuotedString p.2.data).map fun v => { st with id := some v }
  | "CLASS" => (parseQuotedString p.2.data).map fun v => { st with classAttr := some v }
  | "START-DATE" =>
    (parseQuotedString p.2.data).map fun v => { st with start_date := some v }
  | "END-DATE" => (parseQuotedString p.2.data).map fun v => { st with end_date := some v }
  | "DURATION" =>
    (parseDecimalLit p.2.data).map fun q => { st with duration := some (ratToDuration q) }
  | "PLANNED-DURATION" =>
    (parseDecimalLit p.2.data).map fun q =>
      { st with planned_duration := some (ratToDuration q) }
  | "SCTE35-CMD" => (parseQuotedString p.2.data).map fun v => { st with scte35_cmd := some v }
  | "SCTE35-OUT" => (parseQuotedString p.2.data).map fun v => { st with scte35_out := some v }
  | "SCTE35-IN" => (parseQuotedString p.2.data).map fun v => { st with scte35_in := some v }
  | "END-ON-NEXT" => (parseYes p.2).map fun v => { st with end_on_next := some v }
  | _ => some st

/-- The `ExtXDateRange::from_str` attribute loop. -/
def drFold : List AttrPair → DRState → Option DRState
  | [], st => some st
  | p :: ps, st => (drStep st p).bind (drFold ps)

/-- The final checks of `ExtXDateRange::from_str`: `ID` and `START-DATE`
are required, and `END-ON-NEXT` requires `CLASS`. -/
def mkDateRange (st : DRState) : Option ExtXDateRange :=
  match st.id with
  | none => none
  | some i =>
    match st.start_date with
    | none => none
    | some sd =>
      if st.end_on_next.isSome ∧ st.classAttr = none then none
      else
        some ⟨i, st.classAttr, sd, st.end_date, st.duration, st.planned_duration,
          st.scte35_cmd, st.scte35_out, st.scte35_in, st.end_on_next⟩

/-- `ExtXDateRange::from_str`. -/
def extXDateRangeFromStr (s : List Char) : Option ExtXDateRange :=
  (stripHead? "#EXT-X-DATERANGE:".data s).bind fun rest =>
    (attributePairs rest).bind fun ps =>
      (drFold ps initDRState).bind mkDateRange

/-- `ExtXDateRange` `Display`, exactly as the source writes it: note the
underscores in `START_DATE`, `END_DATE`, `PLANNED_DURATION`,
`SCTE35_CMD`, `SCTE35_OUT`, `SCTE35_IN` and `END_ON_NEXT`, which differ
from the hyphenated keys `from_str` recognizes. -/
def extXDateRangeChars (t : ExtXDateRange) : List Char :=
  "#EXT-X-DATERANGE:".data ++
  "ID=".data ++ t.id.chars ++
  (match t.classAttr with
   | none => []
   | some x => ",CLASS=".data ++ x.chars) ++
  ",START_DATE=".data ++ t.start_date.chars ++
  (match t.end_date with
   | none => []
   | some x => ",END_DATE=".data ++ x.chars) ++
  (match t.duration with
   | none => []
   | some x => ",DURATION=".data ++ durationDecimalChars x) ++
  (match t.planned_duration with
   | none => []
   | some x => ",PLANNED_DURATION=".data ++ durationDecimalChars x) ++
  (match t.scte35_cmd with
   | none => []
   | some x => ",SCTE35_CMD=".data ++ x.chars) ++
  (match t.scte35_out with
   | none => []
   | some x => ",SCTE35_OUT=".data ++ x.chars) ++
  (match t.scte35_in with
   | none => []
   | some x => ",SCTE35_IN=".data ++ x.chars) ++
  (match t.end_on_next with
   | none => []
   | some _ => ",END_ON_NEXT=YES".data)

/-- `ExtXTargetDuration` of `tag.rs`. -/
structure ExtXTargetDuration where
  duration : Duration
deriving DecidableEq, Repr

/-- `ExtXTargetDuration::from_str`: the suffix parsed as a `u64`, stored
through `Duration::from_secs`. -/
def extXTargetDurationFromStr (s : List Char) : Option ExtXTargetDuration :=
  (stripHead? "#EXT-X-TARGETDURATION:".data s).bind fun rest =>
    (parseU64 rest).map fun n => ⟨Duration.fromSecs n⟩

/-- `ExtXTargetDuration` `Display`: the head then `duration.as_secs()` —
the nanosecond remainder is dropped. -/
def extXTargetDurationChars (t : ExtXTargetDuration) : List Char :=
  "#EXT-X-TARGETDURATION:".data ++ natChars t.duration.secs

/-- `ExtXMediaSequence` of `tag.rs`. -/
structure ExtXMediaSequence where
  seq_num : Nat
deriving DecidableEq, Repr

/-- `ExtXMediaSequence::from_str`. -/
def extXMediaSequenceFromStr (s : List Char) : Option ExtXMediaSequence :=
  (stripHead? "#EXT-X-MEDIA-SEQUENCE:".data s).bind fun rest =>
    (parseU64 rest).map ExtXMediaSequence.mk

/-- `ExtXDiscontinuitySequence` of `tag.rs`. -/
structure ExtXDiscontinuitySequence where
  seq_num : Nat
deriving DecidableEq, Repr

/-- `ExtXDiscontinuitySequence::from_str`. -/
def extXDiscontinuitySequenceFromStr (s : List Char) : Option ExtXDiscontinuitySequence :=
  (stripHead? "#EXT-X-DISCONTINUITY-SEQUENCE:".data s).bind fun rest =>
    (parseU64 rest).map ExtXDiscontinuitySequence.mk

/-- `ExtXEndList` of `tag.rs`. -/
structure ExtXEndList where
deriving DecidableEq, Repr

/-- `ExtXEndList::from_str`: exact-equality check. -/
def extXEndListFromStr (s : List Char) : Option ExtXEndList :=
  if s = "#EXT-X-ENDLIST".data then some ⟨⟩ else none

/-- `ExtXPlaylistType` of `tag.rs`. -/
structure ExtXPlaylistType where
  playlist_type : PlaylistType
deriving DecidableEq, Repr

/-- `ExtXPlaylistType::from_str`. -/
def extXPlaylistTypeFromStr (s : List Char) : Option ExtXPlaylistType :=
  (stripHead? "#EXT-X-PLAYLIST-TYPE:".data s).bind fun rest =>
    (parsePlaylistType (String.mk rest)).map ExtXPlaylistType.mk

/-- `ExtXIFramesOnly` of `tag.rs`. -/
structure ExtXIFramesOnly where
deriving DecidableEq, Repr

/-- `ExtXIFramesOnly::from_str`: exact-equality check. -/
def extXIFramesOnlyFromStr (s : List Char) : Option ExtXIFramesOnly :=
  if s = "#EXT-X-I-FRAMES-ONLY".data then some ⟨⟩ else none

/-- `ExtXMedia` of `tag.rs`. -/
structure ExtXMedia where
  media_type : MediaType
  uri : Option QuotedString
  group_id : QuotedString
  language : Option QuotedString
  assoc_language : Option QuotedString
  name : QuotedString
  default : YesOrNo
  autoselect : YesOrNo
  forced : Option YesOrNo
  instream_id : Option QuotedString
  characteristics : Option QuotedString
  channels : Option QuotedString
deriving DecidableEq, Repr

/-- The mutable attribute state of `ExtXMedia::from_str`. -/
structure MediaState where
  media_type : Option MediaType
  uri : Option QuotedString
  group_id : Option QuotedString
  language : Option QuotedString
  assoc_language : Option QuotedString
  name : Option QuotedString
  default : Option YesOrNo
  autoselect : Option YesOrNo
  forced : Option YesOrNo
  instream_id : Option QuotedString
  characteristics : Option QuotedString
  channels : Option QuotedString
deriving DecidableEq, Repr

/-- The empty `ExtXMedia::from_str` state. -/
def initMediaState : MediaState :=
  ⟨none, none, none, none, none, none, none, none, none, none, none, none⟩

/-- One loop iteration of `ExtXMedia::from_str`: recognized keys are
overwritten without a duplicate check, unrecognized keys are ignored. -/
def mediaStep (st : MediaState) (p : AttrPair) : Option MediaState :=
  match p.1 with
  | "TYPE" => (parseMediaType p.2).map fun v => { st with media_type := some v }
  | "URI" => (parseQuotedString p.2.data).map fun v => { st with uri := some v }
  | "GROUP-ID" => (parseQuotedString p.2.data).map fun v => { st with group_id := some v }
  | "LANGUAGE" => (parseQuotedString p.2.data).map fun v => { st with language := some v }
  | "ASSOC-LANGUAGE" =>
    (parseQuotedString p.2.data).map fun v => { st with assoc_language := some v }
  | "NAME" => (parseQuotedString p.2.data).map fun v => { st with name := some v }
  | "DEFAULT" => (parseYesOrNo p.2).map fun v => { st with default := some v }
  | "AUTOSELECT" => (parseYesOrNo p.2).map fun v => { st with autoselect := some v }
  | "FORCED" => (parseYesOrNo p.2).map fun v => { st with forced := some v }
  | "INSTREAM-ID" =>
    (parseQuotedString p.2.data).map fun v => { st with instream_id := some v }
  | "CHARACTERISTICS" =>
    (parseQuotedString p.2.data).map fun v => { st with characteristics := some v }
  | "CHANNELS" => (parseQuotedString p.2.data).map fun v => { st with channels := some v }
  | _ => some st

/-- The `ExtXMedia::from_str` attribute loop. -/
def mediaFold : List AttrPair → MediaState → Option MediaState
  | [], st => some st
  | p :: ps, st => (mediaStep st p).bind (mediaFold ps)

/-- The final checks of `ExtXMedia::from_str`: `TYPE`, `GROUP-ID` and
`NAME` are required; `CLOSED-CAPTIONS` requires both a URI and an
`INSTREAM-ID` while any other type forbids `INSTREAM-ID`; `FORCED` is
only legal for `SUBTITLES`; `DEFAULT` and `AUTOSELECT` default to `NO`. -/
def mkMedia (st : MediaState) : Option ExtXMedia :=
  match st.media_type with
  | none => none
  | some mt =>
    match st.group_id with
    | none => none
    | some g =>
      match st.name with
      | none => none
      | some n =>
        if mt = MediaType.closedCaptions then
          if st.uri = none then none
          else if st.instream_id.isSome then
            if mt ≠ MediaType.subtitles ∧ st.forced ≠ none then none
            else
              some ⟨mt, st.uri, g, st.language, st.assoc_language, n,
                st.default.getD YesOrNo.no, st.autoselect.getD YesOrNo.no,
                st.forced, st.instream_id, st.characteristics, st.channels⟩
          else none
        else
          if st.instream_id.isSome then none
          else if mt ≠ MediaType.subtitles ∧ st.forced ≠ none then none
          else
            some ⟨mt, st.uri, g, st.language, st.assoc_language, n,
              st.default.getD YesOrNo.no, st.autoselect.getD YesOrNo.no,
              st.forced, st.instream_id, st.characteristics, st.channels⟩

/-- `ExtXMedia::from_str`. -/
def extXMediaFromStr (s : List Char) : Option ExtXMedia :=
  (stripHead? "#EXT-X-MEDIA:".data s).bind fun rest =>
    (attributePairs rest).bind fun ps =>
      (mediaFold ps initMediaState).bind mkMedia

/-- `ExtXMedia` `Display`, exactly as the source writes it: note
`GROUP_ID` with an underscore (the parser recognizes `GROUP-ID`), and that
`DEFAULT`/`AUTOSELECT` are only written when they are `YES`. -/
def extXMediaChars (t : ExtXMedia) : List Char :=
  "#EXT-X-MEDIA:".data ++
  "TYPE=".data ++ mediaTypeChars t.media_type ++
  (match t.uri with
   | none => []
   | some x => ",URI=".data ++ x.chars) ++
  ",GROUP_ID=".data ++ t.group_id.chars ++
  (match t.language with
   | none => []
   | some x => ",LANGUAGE=".data ++ x.chars) ++
  (match t.assoc_language with
   | none => []
   | some x => ",ASSOC-LANGUAGE=".data ++ x.chars) ++
  ",NAME=".data ++ t.name.chars ++
  (if t.default = YesOrNo.yes then ",DEFAULT=YES".data else []) ++
  (if t.autoselect = YesOrNo.yes then ",AUTOSELECT=YES".data else []) ++
  (match t.forced with
   | none => []
   | some x => ",FORCED=".data ++ yesOrNoChars x) ++
  (match t.instream_id with
   | none => []
   | some x => ",INSTREAM-ID=".data ++ x.chars) ++
  (match t.characteristics with
   | none => []
   | some x => ",CHARACTERISTICS=".data ++ x.chars) ++
  (match t.channels with
   | none => []
   | some x => ",CHANNELS=".data ++ x.chars)

/-- `ExtXStreamInf` of `tag.rs` (`frame_rate` carries the
`DecimalFloatingPoint` value, modelled as a rational). -/
structure ExtXStreamInf where
  bandwidth : DecimalInteger
  average_bandwidth : Option DecimalInteger
  codecs : Option QuotedString
  resolution : Option DecimalResolution
  frame_rate : Option ℚ
  hdcp_level : Option HdcpLevel
  audio : Option QuotedString
  video : Option QuotedString
  subtitles : Option QuotedString
  closed_captions : Option ClosedCaptions
deriving DecidableEq, Repr

/-- The mutable attribute state of `ExtXStreamInf::from_str`. -/
structure SIState where
  bandwidth : Option DecimalInteger
  average_bandwidth : Option DecimalInteger
  codecs : Option QuotedString
  resolution : Option DecimalResolution
  frame_rate : Option ℚ
  hdcp_level : Option HdcpLevel
  audio : Option QuotedString
  video : Option QuotedString
  subtitles : Option QuotedString
  closed_captions : Option ClosedCaptions
deriving DecidableEq, Repr

/-- One loop iteration of `ExtXStreamInf::from_str` (no duplicate
checks; unrecognized keys ignored). -/
def siStep (st : SIState) (p : AttrPair) : Option SIState :=
  match p.1 with
  | "BANDWIDTH" => (parseDecimalInteger p.2.data).map fun v => { st with bandwidth := some v }
  | "AVERAGE-BANDWIDTH" =>
    (parseDecimalInteger p.2.data).map fun v => { st with average_bandwidth := some v }
  | "CODECS" => (parseQuotedString p.2.data).map fun v => { st with codecs := some v }
  | "RESOLUTION" =>
    (parseDecimalResolution p.2.data).map fun v => { st with resolution := some v }
  | "FRAME-RATE" => (parseDecimalLit p.2.data).map fun v => { st with frame_rate := some v }
  | "HDCP-LEVEL" => (parseHdcpLevel p.2).map fun v => { st with hdcp_level := some v }
  | "AUDIO" => (parseQuotedString p.2.data).map fun v => { st with audio := some v }
  | "VIDEO" => (parseQuotedString p.2.data).map fun v => { st with video := some v }
  | "SUBTITLES" => (parseQuotedString p.2.data).map fun v => { st with subtitles := some v }
  | "CLOSED-CAPTIONS" =>
    (parseClosedCaptions p.2).map fun v => { st with closed_captions := some v }
  | _ => some st

/-- The `ExtXStreamInf::from_str` attribute loop. -/
def siFold : List AttrPair → SIState → Option SIState
  | [], st => some st
  | p :: ps, st => (siStep st p).bind (siFold ps)

/-- `ExtXStreamInf::from_str` (`BANDWIDTH` is required). -/
def extXStreamInfFromStr (s : List Char) : Option ExtXStreamInf :=
  (stripHead? "#EXT-X-STREAM-INF:".data s).bind fun rest =>
    (attributePairs rest).bind fun ps =>
      (siFold ps ⟨none, none, none, none, none, none, none, none, none, none⟩).bind
        fun st =>
          match st.bandwidth with
          | none => none
          | some b =>
            some ⟨b, st.average_bandwidth, st.codecs, st.resolution, st.frame_rate,
              st.hdcp_level, st.audio, st.video, st.subtitles, st.closed_captions⟩

/-- `ExtXIFrameStreamInf` of `tag.rs`. -/
structure ExtXIFrameStreamInf where
  uri : QuotedString
  bandwidth : DecimalInteger
  average_bandwidth : Option DecimalInteger
  codecs : Option QuotedString
  resolution : Option DecimalResolution
  hdcp_level : Option HdcpLevel
  video : Option QuotedString
deriving DecidableEq, Repr

/-- The mutable attribute state of `ExtXIFrameStreamInf::from_str`. -/
structure IFSIState where
  uri : Option QuotedString
  bandwidth : Option DecimalInteger
  average_bandwidth : Option DecimalInteger
  codecs : Option QuotedString
  resolution : Option DecimalResolution
  hdcp_level : Option HdcpLevel
  video : Option QuotedString
deriving DecidableEq, Repr

/-- One loop iteration of `ExtXIFrameStreamInf::from_str`. -/
def ifsiStep (st : IFSIState) (p : AttrPair) : Option IFSIState :=
  match p.1 with
  | "URI" => (parseQuotedString p.2.data).map fun v => { st with uri := some v }
  | "BANDWIDTH" => (parseDecimalInteger p.2.data).map fun v => { st with bandwidth := some v }
  | "AVERAGE-BANDWIDTH" =>
    (parseDecimalInteger p.2.data).map fun v => { st with average_bandwidth := some v }
  | "CODECS" => (parseQuotedString p.2.data).map fun v => { st with codecs := some v }
  | "RESOLUTION" =>
    (parseDecimalResolution p.2.data).map fun v => { st with resolution := some v }
  | "HDCP-LEVEL" => (parseHdcpLevel p.2).map fun v => { st with hdcp_level := some v }
  | "VIDEO" => (parseQuotedString p.2.data).map fun v => { st with video := some v }
  | _ => some st

/-- The `ExtXIFrameStreamInf::from_str` attribute loop. -/
def ifsiFold : List AttrPair → IFSIState → Option IFSIState
  | [], st => some st
  | p :: ps, st => (ifsiStep st p).bind (ifsiFold ps)

/-- `ExtXIFrameStreamInf::from_str` (`URI` and `BANDWIDTH` required). -/
def extXIFrameStreamInfFromStr (s : List Char) : Option ExtXIFrameStreamInf :=
  (stripHead? "#EXT-X-I-FRAME-STREAM-INF:".data s).bind fun rest =>
    (attributePairs rest).bind fun ps =>
      (ifsiFold ps ⟨none, none, none, none, none, none, none⟩).bind fun st =>
        match st.uri with
        | none => none
        | some u =>
          match st.bandwidth with
          | none => none
          | some b =>
            some ⟨u, b, st.average_bandwidth, st.codecs, st.resolution,
              st.hdcp_level, st.video⟩

/-- `SessionData` of `tag.rs`: a literal value or a URI. -/
inductive SessionData where
  | value (v : QuotedString)
  | uri (u : QuotedString)
deriving DecidableEq, Repr

/-- `ExtXSessionData` of `tag.rs`. -/
structure ExtXSessionData where
  data_id : QuotedString
  data : SessionData
  language : Option QuotedString
deriving DecidableEq, Repr

/-- The mutable attribute state of `ExtXSessionData::from_str`. -/
structure SDState where
  data_id : Option QuotedString
  value : Option QuotedString
  uri : Option QuotedString
  language : Option QuotedString
deriving DecidableEq, Repr

/-- The empty `ExtXSessionData::from_str` state. -/
def initSDState : SDState := ⟨none, none, none, none⟩

/-- One loop iteration of `ExtXSessionData::from_str` (no duplicate
checks; unrecognized keys ignored). -/
def sdStep (st : SDState) (p : AttrPair) : Option SDState :=
  if p.1 = "DATA-ID" then (parseQuotedString p.2.data).map fun v => { st with data_id := some v }
  else if p.1 = "VALUE" then (parseQuotedString p.2.data).map fun v => { st with value := some v }
  else if p.1 = "URI" then (parseQuotedString p.2.data).map fun v => { st with uri := some v }
  else if p.1 = "LANGUAGE" then
    (parseQuotedString p.2.data).map fun v => { st with language := some v }
  else some st

/-- The `ExtXSessionData::from_str` attribute loop. -/
def sdFold : List AttrPair → SDState → Option SDState
  | [], st => some st
  | p :: ps, st => (sdStep st p).bind (sdFold ps)

/-- The final checks of `ExtXSessionData::from_str`: `DATA-ID` is
required; a `VALUE` forbids a `URI`; one of the two must be present. -/
def mkSessionData (st : SDState) : Option ExtXSessionData :=
  match st.data_id with
  | none => none
  | some i =>
    match st.value with
    | some v => if st.uri = none then some ⟨i, SessionData.value v, st.language⟩ else none
    | none =>
      match st.uri with
      | some u => some ⟨i, SessionData.uri u, st.language⟩
      | none => none

/-- `ExtXSessionData::from_str` after tokenization. -/
def extXSessionDataOfPairs (ps : List AttrPair) : Option ExtXSessionData :=
  (sdFold ps initSDState).bind mkSessionData

/-- `ExtXSessionData::from_str`. -/
def extXSessionDataFromStr (s : List Char) : Option ExtXSessionData :=
  (stripHead? "#EXT-X-SESSION-DATA:".data s).bind fun rest =>
    (attributePairs rest).bind extXSessionDataOfPairs

/-- `ExtXSessionKey` of `tag.rs`. -/
structure ExtXSessionKey where
  method : SessionEncryptionMethod
  uri : QuotedString
  iv : Option HexadecimalSequence
  key_format : Option QuotedString
  key_format_versions : Option QuotedString
deriving DecidableEq, Repr

/-- The mutable attribute state of `ExtXSessionKey::from_str`. -/
structure SKState where
  method : Option SessionEncryptionMethod
  uri : Option QuotedString
  iv : Option HexadecimalSequence
  key_format : Option QuotedString
  key_format_versions : Option QuotedString
deriving DecidableEq, Repr

/-- One loop iteration of `ExtXSessionKey::from_str` (duplicates are
errors, like `ExtXKey`). -/
def skStep (st : SKState) (p : AttrPair) : Option SKState :=
  match p.1 with
  | "METHOD" =>
    match st.method with
    | some _ => none
    | none => (parseSessionEncryptionMethod p.2).map fun m => { st with method := some m }
  | "URI" =>
    match st.uri with
    | some _ => none
    | none => (parseQuotedString p.2.data).map fun v => { st with uri := some v }
  | "IV" =>
    match st.iv with
    | some _ => none
    | none => (parseHexSeq p.2.data).map fun v => { st with iv := some v }
  | "KEYFORMAT" =>
    match st.key_format with
    | some _ => none
    | none => (parseQuotedString p.2.data).map fun v => { st with key_format := some v }
  | "KEYFORMATVERSIONS" =>
    match st.key_format_versions with
    | some _ => none
    | none =>
      (parseQuotedString p.2.data).map fun v => { st with key_format_versions := some v }
  | _ => some st

/-- The `ExtXSessionKey::from_str` attribute loop. -/
def skFold : List AttrPair → SKState → Option SKState
  | [], st => some st
  | p :: ps, st => (skStep st p).bind (skFold ps)

/-- `ExtXSessionKey::from_str` (`METHOD` and `URI` required). -/
def extXSessionKeyFromStr (s : List Char) : Option ExtXSessionKey :=
  (stripHead? "#EXT-X-SESSION-KEY:".data s).bind fun rest =>
    (attributePairs rest).bind fun ps =>
      (skFold ps ⟨none, none, none, none, none⟩).bind fun st =>
        match st.method with
        | none => none
        | some m =>
          match st.uri with
          | none => none
          | some u => some ⟨m, u, st.iv, st.key_format, st.key_format_versions⟩

/-- `ExtXIndependentSegments` of `tag.rs`. -/
structure ExtXIndependentSegments where
deriving DecidableEq, Repr

/-- `ExtXIndependentSegments::from_str`: exact-equality check. -/
def extXIndependentSegmentsFromStr (s : List Char) : Option ExtXIndependentSegments :=
  if s = "#EXT-X-INDEPENDENT-SEGMENTS".data then some ⟨⟩ else none

/-- `ExtXStart` of `tag.rs` (`time_offset` carries the
`SignedDecimalFloatingPoint` value, modelled as a rational). -/
structure ExtXStart where
  time_offset : ℚ
  precise : YesOrNo
deriving DecidableEq, Repr

/-- The mutable attribute state of `ExtXStart::from_str`. -/
structure StartState where
  time_offset : Option ℚ
  precise : Option YesOrNo
deriving DecidableEq, Repr

/-- One loop iteration of `ExtXStart::from_str`. -/
def startStep (st : StartState) (p : AttrPair) : Option StartState :=
  match p.1 with
  | "TIME-OFFSET" =>
    (parseSignedDecimalLit p.2.data).map fun v => { st with time_offset := some v }
  | "PRECISE" => (parseYesOrNo p.2).map fun v => { st with precise := some v }
  | _ => some st

/-- The `ExtXStart::from_str` attribute loop. -/
def startFold : List AttrPair → StartState → Option StartState
  | [], st => some st
  | p :: ps, st => (startStep st p).bind (startFold ps)

/-- `ExtXStart::from_str` (`TIME-OFFSET` required, `PRECISE` defaults to
`NO`). -/
def extXStartFromStr (s : List Char) : Option ExtXStart :=
  (stripHead? "#EXT-X-START:".data s).bind fun rest =>
    (attributePairs rest).bind fun ps =>
      (startFold ps ⟨none, none⟩).bind fun st =>
        match st.time_offset with
        | none => none
        | some t => some ⟨t, st.precise.getD YesOrNo.no⟩

/-- The closed tag sum type `Tag` of `tag.rs`. -/
inductive Tag where
  | extM3u (t : ExtM3u)
  | extXVersion (t : ExtXVersion)
  | extInf (t : ExtInf)
  | extXByteRange (t : ExtXByteRange)
  | extXDiscontinuity (t : ExtXDiscontinuity)
  | extXKey (t : ExtXKey)
  | extXMap (t : ExtXMap)
  | extXProgramDateTime (t : ExtXProgramDateTime)
  | extXDateRange (t : ExtXDateRange)
  | extXTargetDuration (t : ExtXTargetDuration)
  | extXMediaSequence (t : ExtXMediaSequence)
  | extXDiscontinuitySequence (t : ExtXDiscontinuitySequence)
  | extXEndList (t : ExtXEndList)
  | extXPlaylistType (t : ExtXPlaylistType)
  | extXIFramesOnly (t : ExtXIFramesOnly)
  | extXMedia (t : ExtXMedia)
  | extXStreamInf (t : ExtXStreamInf)
  | extXIFrameStreamInf (t : ExtXIFrameStreamInf)
  | extXSessionData (t : ExtXSessionData)
  | extXSessionKey (t : ExtXSessionKey)
  | extXIndependentSegments (t : ExtXIndependentSegments)
  | extXStart (t : ExtXStart)
deriving DecidableEq, Repr

/-- `Tag::from_str`: tries each variant's literal head with
`starts_with`, in exactly the source's order, and delegates to the first
match; no match is an unknown-tag error. -/
def tagFromStr (s : List Char) : Option Tag :=
  if "#EXTM3U".data.isPrefixOf s then (extM3uFromStr s).map Tag.extM3u
  else if "#EXT-X-VERSION:".data.isPrefixOf s then (extXVersionFromStr s).map Tag.extXVersion
  else if "#EXTINF:".data.isPrefixOf s then (extInfFromStr s).map Tag.extInf
  else if "#EXT-X-BYTERANGE:".data.isPrefixOf s then
    (extXByteRangeFromStr s).map Tag.extXByteRange
  else if "#EXT-X-DISCONTINUITY".data.isPrefixOf s then
    (extXDiscontinuityFromStr s).map Tag.extXDiscontinuity
  else if "#EXT-X-KEY:".data.isPrefixOf s then (extXKeyFromStr s).map Tag.extXKey
  else if "#EXT-X-MAP:".data.isPrefixOf s then (extXMapFromStr s).map Tag.extXMap
  else if "#EXT-X-PROGRAM-DATE-TIME:".data.isPrefixOf s then
    (extXProgramDateTimeFromStr s).map Tag.extXProgramDateTime
  else if "#EXT-X-TARGETDURATION:".data.isPrefixOf s then
    (extXTargetDurationFromStr s).map Tag.extXTargetDuration
  else if "#EXT-X-DATERANGE:".data.isPrefixOf s then
    (extXDateRangeFromStr s).map Tag.extXDateRange
  else if "#EXT-X-MEDIA-SEQUENCE:".data.isPrefixOf s then
    (extXMediaSequenceFromStr s).map Tag.extXMediaSequence
  else if "#EXT-X-DISCONTINUITY-SEQUENCE:".data.isPrefixOf s then
    (extXDiscontinuitySequenceFromStr s).map Tag.extXDiscontinuitySequence
  else if "#EXT-X-ENDLIST".data.isPrefixOf s then (extXEndListFromStr s).map Tag.extXEndList
  else if "#EXT-X-PLAYLIST-TYPE:".data.isPrefixOf s then
    (extXPlaylistTypeFromStr s).map Tag.extXPlaylistType
  else if "#EXT-X-I-FRAMES-ONLY".data.isPrefixOf s then
    (extXIFramesOnlyFromStr s).map Tag.extXIFramesOnly
  else if "#EXT-X-MEDIA:".data.isPrefixOf s then (extXMediaFromStr s).map Tag.extXMedia
  else if "#EXT-X-STREAM-INF:".data.isPrefixOf s then
    (extXStreamInfFromStr s).map Tag.extXStreamInf
  else if "#EXT-X-I-FRAME-STREAM-INF:".data.isPrefixOf s then
    (extXIFrameStreamInfFromStr s).map Tag.extXIFrameStreamInf
  else if "#EXT-X-SESSION-DATA:".data.isPrefixOf s then
    (extXSessionDataFromStr s).map Tag.extXSessionData
  else if "#EXT-X-SESSION-KEY:".data.isPrefixOf s then
    (extXSessionKeyFromStr s).map Tag.extXSessionKey
  else if "#EXT-X-INDEPENDENT-SEGMENTS".data.isPrefixOf s then
    (extXIndependentSegmentsFromStr s).map Tag.extXIndependentSegments
  else if "#EXT-X-START:".data.isPrefixOf s then (extXStartFromStr s).map Tag.extXStart
  else none

/-! ### Helper lemmas -/

theorem digitChar_isDigit (d : Nat) (h : d < 10) : (digitChar d).isDigit = true := by
  interval_cases d <;> decide

theorem digitVal_digitChar (d : Nat) (h : d < 10) : digitVal (digitChar d) = d := by
  interval_cases d <;> decide

theorem isDigit_ne_comma {c : Char} (h : c.isDigit = true) : c ≠ ',' := by
  rintro rfl
  exact absurd h (by decide)

theorem isDigit_ne_plus {c : Char} (h : c.isDigit = true) : c ≠ '+' := by
  rintro rfl
  exact absurd h (by decide)

theorem natCharsGo_digits :
    ∀ fuel n : Nat, ∀ c ∈ natCharsGo fuel n, c.isDigit = true := by
  intro fuel
  induction fuel with
  | zero => intro n c hc; simp [natCharsGo] at hc
  | succ fuel ih =>
    intro n c hc
    rw [natCharsGo] at hc
    split at hc
    · next h =>
      rcases List.mem_singleton.mp hc with rfl
      exact digitChar_isDigit n h
    · rcases List.mem_append.mp hc with h | h
      · exact ih _ c h
      · rcases List.mem_singleton.mp h with rfl
        exact digitChar_isDigit _ (Nat.mod_lt _ (by norm_num))

theorem natCharsGo_foldl :
    ∀ fuel n : Nat, n < fuel → ∀ acc : Nat,
      (natCharsGo fuel n).foldl (fun a c => a * 10 + digitVal c) acc =
        acc * 10 ^ (natCharsGo fuel n).length + n := by
  intro fuel
  induction fuel with
  | zero => intro n h; omega
  | succ fuel ih =>
    intro n h acc
    rw [natCharsGo]
    split
    · next h10 => simp [digitVal_digitChar n h10]
    · next h10 =>
      push_neg at h10
      have hdiv : n / 10 < fuel := by
        have : n / 10 < n := Nat.div_lt_self (by omega) (by norm_num)
        omega
      rw [List.foldl_append, ih (n / 10) hdiv acc]
      simp only [List.foldl_cons, List.foldl_nil, List.length_append, List.length_cons,
        List.length_nil]
      rw [digitVal_digitChar _ (Nat.mod_lt _ (by norm_num))]
      ring_nf
      have hdm : n / 10 * 10 + n % 10 = n := by
        rw [Nat.mul_comm]
        exact Nat.div_add_mod n 10
      rw [Nat.add_assoc, hdm]

theorem natChars_digits (n : Nat) : ∀ c ∈ natChars n, c.isDigit = true :=
  natCharsGo_digits (n + 1) n

theorem digitsVal_natChars (n : Nat) : digitsVal (natChars n) = n := by
  have h := natCharsGo_foldl (n + 1) n (Nat.lt_succ_self n) 0
  simpa [digitsVal, natChars] using h

theorem natChars_ne_nil (n : Nat) : natChars n ≠ [] := by
  rw [natChars, natCharsGo]
  split <;> simp

theorem parseU64_natChars (n : Nat) (h : n < 2 ^ 64) : parseU64 (natChars n) = some n := by
  have hall : (natChars n).all Char.isDigit = true :=
    List.all_eq_true.mpr fun c hc => natChars_digits n c hc
  have hhead : (natChars n).head? ≠ some '+' := by
    cases hc : natChars n with
    | nil => simp
    | cons c cs =>
      simp only [List.head?_cons, ne_eq, Option.some.injEq]
      intro hplus
      exact isDigit_ne_plus (natChars_digits n c (hc ▸ List.mem_cons_self c cs)) hplus
  rw [parseU64]
  simp only [if_neg hhead]
  rw [if_pos ⟨natChars_ne_nil n, hall⟩, digitsVal_natChars, if_pos h]

theorem stripHead?_append (p r : List Char) : stripHead? p (p ++ r) = some r := by
  rw [stripHead?, if_pos, List.drop_left]
  rw [List.isPrefixOf_iff_prefix]
  exact List.prefix_append p r

theorem splitOnceAt_append {c : Char} {pre : List Char} (h : c ∉ pre) (post : List Char) :
    splitOnceAt c (pre ++ c :: post) = (pre, some post) := by
  induction pre with
  | nil => simp [splitOnceAt]
  | cons x xs ih =>
    have hx : x ≠ c := fun hxc => h (hxc ▸ List.mem_cons_self x xs)
    have hxs : c ∉ xs := fun hm => h (List.mem_cons_of_mem x hm)
    simp [splitOnceAt, hx, ih hxs]

/-- The recognized attribute keys of `ExtXKey::from_str`. -/
def keyAttrNames : List String :=
  ["METHOD", "URI", "IV", "KEYFORMAT", "KEYFORMATVERSIONS"]

/-- Whether the `ExtXKey::from_str` state already holds a value for the
recognized key `k`. -/
def keySetOf (k : String) (st : KeyState) : Bool :=
  if k = "METHOD" then st.method.isSome
  else if k = "URI" then st.uri.isSome
  else if k = "IV" then st.iv.isSome
  else if k = "KEYFORMAT" then st.key_format.isSome
  else if k = "KEYFORMATVERSIONS" then st.key_format_versions.isSome
  else false

theorem keySetOf_init (k : String) : keySetOf k initKeyState = false := by
  rw [keySetOf]
  split_ifs <;> rfl

theorem keyStep_set {st st' : KeyState} {p : AttrPair} (h : keyStep st p = some st')
    (k : String) (hk : k ∈ keyAttrNames) :
    keySetOf k st' = (keySetOf k st || decide (p.1 = k)) ∧
      (p.1 = k → keySetOf k st = false) := by
  simp only [keyAttrNames, List.mem_cons, List.not_mem_nil, or_false] at hk
  rw [keyStep] at h
  rcases hk with rfl | rfl | rfl | rfl | rfl <;>
    split_ifs at h <;>
    first
      | (obtain ⟨v, _, rfl⟩ := Option.map_eq_some'.mp h; simp_all [keySetOf])
      | (obtain rfl := Option.some.inj h; simp_all [keySetOf])

theorem keyFold_le_one :
    ∀ (ps : List AttrPair) (st st' : KeyState), keyFold ps st = some st' →
      ∀ k ∈ keyAttrNames, countKey k ps + (keySetOf k st).toNat ≤ 1 := by
  intro ps
  induction ps with
  | nil =>
    intro st st' _ k _
    simp only [countKey, List.countP_nil, Nat.zero_add]
    cases keySetOf k st <;> simp
  | cons p ps ih =>
    intro st st' h k hk
    obtain ⟨st₁, h₁, h₂⟩ := Option.bind_eq_some.mp h
    have hi := ih st₁ st' h₂ k hk
    obtain ⟨hset, hdup⟩ := keyStep_set h₁ k hk
    rw [countKey, List.countP_cons]
    by_cases hpk : p.1 = k
    · have hdec : decide (p.1 = k) = true := decide_eq_true hpk
      have hf := hdup hpk
      rw [hdec, hf, Bool.false_or] at hset
      rw [hset] at hi
      rw [hdec, if_pos rfl, hf]
      rw [countKey] at hi
      simp only [Bool.toNat_true] at hi
      simp only [Bool.toNat_false]
      omega
    · have hdec : decide (p.1 = k) = false := decide_eq_false hpk
      rw [hdec, Bool.or_false] at hset
      rw [hset] at hi
      rw [hdec]
      rw [countKey] at hi
      simp only [Bool.false_eq_true, if_false, Nat.add_zero]
      omega

theorem extXKeyOfPairs_dup (ps : List AttrPair) (k : String) (hk : k ∈ keyAttrNames)
    (h2 : 2 ≤ countKey k ps) : extXKeyOfPairs ps = none := by
  rw [extXKeyOfPairs]
  cases hf : keyFold ps initKeyState with
  | none => rfl
  | some st' =>
    have hle := keyFold_le_one ps initKeyState st' hf k hk
    rw [keySetOf_init] at hle
    simp only [Bool.toNat_false, Nat.add_zero] at hle
    omega

theorem mkKey_ok {st : KeyState} {k : ExtXKey} (h : mkKey st = some k) :
    k.uri = none ↔ k.method = EncryptionMethod.none := by
  rw [mkKey] at h
  split at h
  · exact absurd h (by simp)
  · next m _ =>
    by_cases h1 : m = EncryptionMethod.none
    · rw [if_pos h1] at h
      by_cases h2 : st.uri = none
      · rw [if_pos h2] at h
        obtain rfl := Option.some.inj h
        simp [h1, h2]
      · rw [if_neg h2] at h
        exact absurd h (by simp)
    · rw [if_neg h1] at h
      by_cases h3 : st.uri.isSome = true
      · rw [if_pos h3] at h
        obtain rfl := Option.some.inj h
        constructor
        · intro hu
          have hu' : st.uri = none := hu
          rw [hu'] at h3
          exact absurd h3 (by simp)
        · intro hm'
          exact absurd hm' h1
      · rw [if_neg h3] at h
        exact absurd h (by simp)

theorem mkMedia_ok {st : MediaState} {m : ExtXMedia} (h : mkMedia st = some m) :
    (m.media_type = MediaType.closedCaptions → m.uri.isSome ∧ m.instream_id.isSome) ∧
      (m.media_type ≠ MediaType.closedCaptions → m.instream_id = none) ∧
      (m.media_type ≠ MediaType.subtitles → m.forced = none) := by
  rw [mkMedia] at h
  split at h
  · exact absurd h (by simp)
  · next mt _ =>
    split at h
    · exact absurd h (by simp)
    · next g _ =>
      split at h
      · exact absurd h (by simp)
      · next n _ =>
        by_cases hcc : mt = MediaType.closedCaptions
        · rw [if_pos hcc] at h
          by_cases hu : st.uri = none
          · rw [if_pos hu] at h
            exact absurd h (by simp)
          · rw [if_neg hu] at h
            by_cases hins : st.instream_id.isSome = true
            · rw [if_pos hins] at h
              by_cases hforced : mt ≠ MediaType.subtitles ∧ st.forced ≠ none
              · rw [if_pos hforced] at h
                exact absurd h (by simp)
              · rw [if_neg hforced] at h
                obtain rfl := Option.some.inj h
                refine ⟨fun _ => ⟨Option.isSome_iff_ne_none.mpr hu, hins⟩,
                  fun hne => absurd hcc hne, fun _ => ?_⟩
                rcases not_and_or.mp hforced with hmt' | hf
                · have hsubeq := not_not.mp hmt'
                  rw [hcc] at hsubeq
                  exact absurd hsubeq (by decide)
                · exact not_not.mp hf
            · rw [if_neg hins] at h
              exact absurd h (by simp)
        · rw [if_neg hcc] at h
          by_cases hins : st.instream_id.isSome = true
          · rw [if_pos hins] at h
            exact absurd h (by simp)
          · rw [if_neg hins] at h
            by_cases hforced : mt ≠ MediaType.subtitles ∧ st.forced ≠ none
            · rw [if_pos hforced] at h
              exact absurd h (by simp)
            · rw [if_neg hforced] at h
              obtain rfl := Option.some.inj h
              refine ⟨fun hcc' => absurd hcc' hcc, fun _ => ?_, fun hsub => ?_⟩
              · exact Option.not_isSome_iff_eq_none.mp (by simpa using hins)
              · rcases not_and_or.mp hforced with hmt' | hf
                · exact absurd (not_not.mp hmt') hsub
                · exact not_not.mp hf

theorem sdStep_some {st st' : SDState} {p : AttrPair} (h : sdStep st p = some st') :
    st'.value.isSome = (st.value.isSome || decide (p.1 = "VALUE")) ∧
      st'.uri.isSome = (st.uri.isSome || decide (p.1 = "URI")) := by
  rw [sdStep] at h
  split_ifs at h <;>
    first
      | (obtain ⟨v, _, rfl⟩ := Option.map_eq_some'.mp h; simp_all)
      | (obtain rfl := Option.some.inj h; simp_all)

theorem sdFold_keys :
    ∀ (ps : List AttrPair) (st st' : SDState), sdFold ps st = some st' →
      st'.value.isSome = (st.value.isSome || hasKey "VALUE" ps) ∧
        st'.uri.isSome = (st.uri.isSome || hasKey "URI" ps) := by
  intro ps
  induction ps with
  | nil =>
    intro st st' h
    obtain rfl := Option.some.inj h
    simp [hasKey]
  | cons p ps ih =>
    intro st st' h
    obtain ⟨st₁, h₁, h₂⟩ := Option.bind_eq_some.mp h
    obtain ⟨hv, hu⟩ := sdStep_some h₁
    obtain ⟨hv', hu'⟩ := ih st₁ st' h₂
    rw [hv] at hv'
    rw [hu] at hu'
    constructor
    · rw [hv']
      simp [hasKey, List.any_cons, Bool.or_assoc]
    · rw [hu']
      simp [hasKey, List.any_cons, Bool.or_assoc]

theorem mkSessionData_neither {st : SDState} (h1 : st.value = none) (h2 : st.uri = none) :
    mkSessionData st = none := by
  rw [mkSessionData]
  cases st.data_id <;> simp [h1, h2]

theorem mkSessionData_both {st : SDState} (h1 : st.value.isSome = true)
    (h2 : st.uri.isSome = true) : mkSessionData st = none := by
  rw [mkSessionData]
  cases hd : st.data_id with
  | none => rfl
  | some i =>
    cases hv : st.value with
    | none => rw [hv] at h1; exact absurd h1 (by simp)
    | some v =>
      have : ¬st.uri = none := fun he => by rw [he] at h2; exact absurd h2 (by simp)
      simp [this]

theorem mkSessionData_some {st : SDState} {t : ExtXSessionData}
    (h : mkSessionData st = some t) :
    (st.value.isSome = true → ∃ v, t.data = SessionData.value v) ∧
      (st.uri.isSome = true → ∃ u, t.data = SessionData.uri u) := by
  rw [mkSessionData] at h
  split at h
  · exact absurd h (by simp)
  · next i _ =>
    split at h
    · next v hv =>
      by_cases h2 : st.uri = none
      · rw [if_pos h2] at h
        obtain rfl := Option.some.inj h
        exact ⟨fun _ => ⟨v, rfl⟩, fun hu => absurd (h2 ▸ hu) (by simp)⟩
      · rw [if_neg h2] at h
        exact absurd h (by simp)
    · next hv =>
      split at h
      · next u hu =>
        obtain rfl := Option.some.inj h
        exact ⟨fun hs => absurd (hv ▸ hs) (by simp), fun _ => ⟨u, rfl⟩⟩
      · exact absurd h (by simp)

theorem dropTrailingZeros_mem {l : List Char} {c : Char} (h : c ∈ dropTrailingZeros l) :
    c ∈ l := by
  rw [dropTrailingZeros, List.mem_reverse] at h
  exact List.mem_reverse.mp ((List.dropWhile_sublist _).mem h)

theorem nanoFracChars_digits {n : Nat} {c : Char} (h : c ∈ nanoFracChars n) :
    c.isDigit = true := by
  have h' := dropTrailingZeros_mem h
  rcases List.mem_append.mp h' with h0 | hd
  · rw [List.eq_of_mem_replicate h0]
    decide
  · exact natChars_digits _ _ hd

theorem durationDecimalChars_no_comma (d : Duration) : ',' ∉ durationDecimalChars d := by
  intro hm
  rw [durationDecimalChars] at hm
  rcases List.mem_append.mp hm with h | h
  · exact absurd (natChars_digits _ _ h) (by decide)
  · split at h
    · simp at h
    · rcases List.mem_cons.mp h with h' | h'
      · exact absurd h' (by decide)
      · exact absurd (nanoFracChars_digits h') (by decide)

/-! ### Claims -/

/-- Claim C1 (code bug): the spec says `parse(serialize(v)) == v` for every
valid value of every variant, in particular for `ExtXMedia` and
`ExtXDateRange`.  The code violates this: `ExtXMedia`'s serializer writes
`GROUP_ID=` while its parser only recognizes `GROUP-ID`, and
`ExtXDateRange`'s serializer writes `START_DATE=` while its parser only
recognizes `START-DATE`, so re-parsing the serialized line fails with a
missing required attribute.  This theorem exhibits two successfully
parsed values whose serialized forms do not re-parse. -/
theorem claim1_roundtrip_code_bug :
    extXMediaFromStr "#EXT-X-MEDIA:TYPE=AUDIO,GROUP-ID=\"a\",NAME=\"n\"".data =
      some ⟨MediaType.audio, none, ⟨"a".data⟩, none, none, ⟨"n".data⟩,
        YesOrNo.no, YesOrNo.no, none, none, none, none⟩ ∧
    extXMediaFromStr (extXMediaChars ⟨MediaType.audio, none, ⟨"a".data⟩, none, none,
      ⟨"n".data⟩, YesOrNo.no, YesOrNo.no, none, none, none, none⟩) = none ∧
    extXDateRangeFromStr "#EXT-X-DATERANGE:ID=\"i\",START-DATE=\"d\"".data =
      some ⟨⟨"i".data⟩, none, ⟨"d".data⟩, none, none, none, none, none, none, none⟩ ∧
    extXDateRangeFromStr (extXDateRangeChars ⟨⟨"i".data⟩, none, ⟨"d".data⟩, none, none,
      none, none, none, none, none⟩) = none := by
  decide

/-- Claim C2 (code bug): the spec says tag dispatch is unambiguous and in
particular that every valid `#EXT-X-DISCONTINUITY-SEQUENCE:<n>` line
parses to the discontinuity-sequence variant.  In the code the literal
`#EXT-X-DISCONTINUITY` is a prefix of `#EXT-X-DISCONTINUITY-SEQUENCE:`
and is tried first, so `Tag::from_str` delegates such lines to
`ExtXDiscontinuity::from_str`, which demands exact equality and fails —
even though the variant's own parser accepts the line. -/
theorem claim2_dispatch_code_bug :
    "#EXT-X-DISCONTINUITY".data.isPrefixOf "#EXT-X-DISCONTINUITY-SEQUENCE:0".data = true ∧
    extXDiscontinuitySequenceFromStr "#EXT-X-DISCONTINUITY-SEQUENCE:0".data = some ⟨0⟩ ∧
    tagFromStr "#EXT-X-DISCONTINUITY-SEQUENCE:0".data = none := by
  decide

/-- Claim C3 counterexample: the claim says a duplicated recognized
attribute key makes every attribute-list variant fail, in particular
`ExtXDateRange`; but a date-range line with `ID` given twice parses
successfully (the last occurrence wins). -/
theorem claim3_counterexample :
    extXDateRangeFromStr "#EXT-X-DATERANGE:ID=\"a\",ID=\"b\",START-DATE=\"d\"".data =
      some ⟨⟨"b".data⟩, none, ⟨"d".data⟩, none, none, none, none, none, none, none⟩ := by
  decide

/-- Claim C3 as amended: a duplicated recognized attribute key makes
`ExtXKey` parsing fail (for any of its five recognized keys, at any
positions), but `ExtXDateRange` and `ExtXMedia` perform no duplicate
check and accept the line with the last occurrence taking effect;
unrecognized attribute keys are ignored without error. -/
theorem claim3_amended_duplicates :
    (∀ (ps : List AttrPair) (k : String), k ∈ keyAttrNames → 2 ≤ countKey k ps →
      extXKeyOfPairs ps = none) ∧
    extXKeyFromStr "#EXT-X-KEY:METHOD=NONE,METHOD=NONE".data = none ∧
    extXMediaFromStr "#EXT-X-MEDIA:TYPE=AUDIO,GROUP-ID=\"a\",NAME=\"x\",NAME=\"n\"".data =
      some ⟨MediaType.audio, none, ⟨"a".data⟩, none, none, ⟨"n".data⟩,
        YesOrNo.no, YesOrNo.no, none, none, none, none⟩ ∧
    extXDateRangeFromStr
      "#EXT-X-DATERANGE:ID=\"i\",START-DATE=\"d\",CLASS=\"c\",CLASS=\"e\"".data =
      some ⟨⟨"i".data⟩, some ⟨"e".data⟩, ⟨"d".data⟩, none, none, none, none, none,
        none, none⟩ ∧
    extXKeyFromStr "#EXT-X-KEY:METHOD=NONE,FOO=1".data =
      some ⟨EncryptionMethod.none, none, none, none, none⟩ ∧
    extXDateRangeFromStr "#EXT-X-DATERANGE:ID=\"i\",START-DATE=\"d\",X-COM=\"y\"".data =
      some ⟨⟨"i".data⟩, none, ⟨"d".data⟩, none, none, none, none, none, none, none⟩ :=
  ⟨fun ps k hk h2 => extXKeyOfPairs_dup ps k hk h2,
    by decide, by decide, by decide, by decide, by decide⟩

/-- Witness for the amended claim C3: the general duplicate-key statement
applied to a concrete pair list with `METHOD` twice. -/
theorem claim3_amended_duplicates_witness :
    extXKeyOfPairs [("METHOD", "NONE"), ("METHOD", "NONE")] = none :=
  claim3_amended_duplicates.1 [("METHOD", "NONE"), ("METHOD", "NONE")] "METHOD"
    (by decide) (by decide)

/-- Claim C4: `ExtXKey::compatibility_version` is `V5` when a key format
or key-format-versions attribute is present, else `V2` when an IV is
present, else `V1`; and the three scenario lines of the spec parse to
keys of versions `V1`, `V2` and `V5` respectively. -/
theorem claim4_compatibility_version :
    (∀ k : ExtXKey, k.compatibility_version =
      (if k.key_format.isSome || k.key_format_versions.isSome then ProtocolVersion.v5
       else if k.iv.isSome then ProtocolVersion.v2
       else ProtocolVersion.v1)) ∧
    (extXKeyFromStr "#EXT-X-KEY:METHOD=AES-128,URI=\"https://x/k\"".data).map
      ExtXKey.compatibility_version = some ProtocolVersion.v1 ∧
    (extXKeyFromStr
      "#EXT-X-KEY:METHOD=AES-128,URI=\"https://x/k\",IV=0x0102030405060708090a0b0c0d0e0f10".data).map
      ExtXKey.compatibility_version = some ProtocolVersion.v2 ∧
    (extXKeyFromStr
      "#EXT-X-KEY:METHOD=AES-128,URI=\"https://x/k\",IV=0x0102030405060708090a0b0c0d0e0f10,KEYFORMAT=\"id\"".data).map
      ExtXKey.compatibility_version = some ProtocolVersion.v5 :=
  ⟨fun _ => rfl, by decide, by decide, by decide⟩

/-- Claim C5: every successfully parsed `ExtXKey` has `uri = none`
exactly when `method = NONE` (the parser rejects `METHOD=NONE` with a
URI and any other method without one). -/
theorem claim5_key_uri_method (s : List Char) (k : ExtXKey)
    (h : extXKeyFromStr s = some k) :
    k.uri = none ↔ k.method = EncryptionMethod.none := by
  rw [extXKeyFromStr] at h
  obtain ⟨r, _, h⟩ := Option.bind_eq_some.mp h
  obtain ⟨ps, _, h⟩ := Option.bind_eq_some.mp h
  rw [extXKeyOfPairs] at h
  obtain ⟨st, _, h⟩ := Option.bind_eq_some.mp h
  exact mkKey_ok h

/-- Witness for claim C5: the invariant at a concrete parsed key. -/
theorem claim5_key_uri_method_witness :
    ((⟨EncryptionMethod.none, none, none, none, none⟩ : ExtXKey).uri = none) ↔
      ((⟨EncryptionMethod.none, none, none, none, none⟩ : ExtXKey).method =
        EncryptionMethod.none) :=
  claim5_key_uri_method "#EXT-X-KEY:METHOD=NONE".data _ (by decide)

/-- Claim C6: `ExtXSessionData` parsing requires exactly one of `VALUE`
and `URI`: with neither present it fails, with both present it fails,
and a success stores the one that was present (as `SessionData::Value`
or `SessionData::Uri`); the two scenario lines of the spec fail. -/
theorem claim6_session_data_exactly_one :
    (∀ ps : List AttrPair,
      (hasKey "VALUE" ps = false → hasKey "URI" ps = false →
        extXSessionDataOfPairs ps = none) ∧
      (hasKey "VALUE" ps = true → hasKey "URI" ps = true →
        extXSessionDataOfPairs ps = none) ∧
      ∀ t : ExtXSessionData, extXSessionDataOfPairs ps = some t →
        (hasKey "VALUE" ps = true → ∃ v, t.data = SessionData.value v) ∧
        (hasKey "URI" ps = true → ∃ u, t.data = SessionData.uri u)) ∧
    extXSessionDataFromStr "#EXT-X-SESSION-DATA:DATA-ID=\"x\"".data = none ∧
    extXSessionDataFromStr
      "#EXT-X-SESSION-DATA:DATA-ID=\"x\",VALUE=\"v\",URI=\"u\"".data = none := by
  refine ⟨fun ps => ⟨?_, ?_, ?_⟩, by decide, by decide⟩
  · intro hnv hnu
    rw [extXSessionDataOfPairs]
    cases hf : sdFold ps initSDState with
    | none => rfl
    | some st' =>
      obtain ⟨hv, hu⟩ := sdFold_keys ps _ _ hf
      rw [hnv] at hv
      rw [hnu] at hu
      simp only [initSDState, Option.isSome_none, Bool.false_or, Bool.or_false] at hv hu
      exact mkSessionData_neither (Option.not_isSome_iff_eq_none.mp (by simp [hv]))
        (Option.not_isSome_iff_eq_none.mp (by simp [hu]))
  · intro hyv hyu
    rw [extXSessionDataOfPairs]
    cases hf : sdFold ps initSDState with
    | none => rfl
    | some st' =>
      obtain ⟨hv, hu⟩ := sdFold_keys ps _ _ hf
      rw [hyv] at hv
      rw [hyu] at hu
      simp only [initSDState, Option.isSome_none, Bool.false_or, Bool.or_true] at hv hu
      exact mkSessionData_both hv hu
  · intro t ht
    rw [extXSessionDataOfPairs] at ht
    obtain ⟨st', hf, hmk⟩ := Option.bind_eq_some.mp ht
    obtain ⟨hv, hu⟩ := sdFold_keys ps _ _ hf
    have hms := mkSessionData_some hmk
    constructor
    · intro hkv
      refine hms.1 ?_
      rw [hkv] at hv
      simpa [initSDState] using hv
    · intro hku
      refine hms.2 ?_
      rw [hku] at hu
      simpa [initSDState] using hu

/-- Witness for claim C6: the neither- and both-present failures at
concrete attribute-pair lists. -/
theorem claim6_session_data_exactly_one_witness :
    extXSessionDataOfPairs [("DATA-ID", "\"x\"")] = none ∧
    extXSessionDataOfPairs
      [("DATA-ID", "\"x\""), ("VALUE", "\"v\""), ("URI", "\"u\"")] = none :=
  ⟨(claim6_session_data_exactly_one.1 _).1 (by decide) (by decide),
    (claim6_session_data_exactly_one.1 _).2.1 (by decide) (by decide)⟩

/-- Claim C7: every successfully parsed `ExtXMedia` satisfies the
closed-captions cross-field invariant — `CLOSED-CAPTIONS` has both a URI
and an `INSTREAM-ID`, any other type has no `INSTREAM-ID`, and a
`FORCED` attribute only appears for `SUBTITLES`. -/
theorem claim7_media_cc_invariant (s : List Char) (m : ExtXMedia)
    (h : extXMediaFromStr s = some m) :
    (m.media_type = MediaType.closedCaptions →
      m.uri.isSome = true ∧ m.instream_id.isSome = true) ∧
    (m.media_type ≠ MediaType.closedCaptions → m.instream_id = none) ∧
    (m.media_type ≠ MediaType.subtitles → m.forced = none) := by
  rw [extXMediaFromStr] at h
  obtain ⟨r, _, h⟩ := Option.bind_eq_some.mp h
  obtain ⟨ps, _, h⟩ := Option.bind_eq_some.mp h
  obtain ⟨st, _, h⟩ := Option.bind_eq_some.mp h
  exact mkMedia_ok h

/-- Witness for claim C7: the invariant at a concrete parsed
closed-captions rendition. -/
theorem claim7_media_cc_invariant_witness :
    ((⟨MediaType.closedCaptions, some ⟨"u".data⟩, ⟨"g".data⟩, none, none, ⟨"n".data⟩,
        YesOrNo.no, YesOrNo.no, none, some ⟨"CC1".data⟩, none, none⟩ :
          ExtXMedia).media_type = MediaType.closedCaptions →
      (⟨MediaType.closedCaptions, some ⟨"u".data⟩, ⟨"g".data⟩, none, none, ⟨"n".data⟩,
        YesOrNo.no, YesOrNo.no, none, some ⟨"CC1".data⟩, none, none⟩ :
          ExtXMedia).uri.isSome = true ∧
      (⟨MediaType.closedCaptions, some ⟨"u".data⟩, ⟨"g".data⟩, none, none, ⟨"n".data⟩,
        YesOrNo.no, YesOrNo.no, none, some ⟨"CC1".data⟩, none, none⟩ :
          ExtXMedia).instream_id.isSome = true) ∧
    ((⟨MediaType.closedCaptions, some ⟨"u".data⟩, ⟨"g".data⟩, none, none, ⟨"n".data⟩,
        YesOrNo.no, YesOrNo.no, none, some ⟨"CC1".data⟩, none, none⟩ :
          ExtXMedia).media_type ≠ MediaType.closedCaptions →
      (⟨MediaType.closedCaptions, some ⟨"u".data⟩, ⟨"g".data⟩, none, none, ⟨"n".data⟩,
        YesOrNo.no, YesOrNo.no, none, some ⟨"CC1".data⟩, none, none⟩ :
          ExtXMedia).instream_id = none) ∧
    ((⟨MediaType.closedCaptions, some ⟨"u".data⟩, ⟨"g".data⟩, none, none, ⟨"n".data⟩,
        YesOrNo.no, YesOrNo.no, none, some ⟨"CC1".data⟩, none, none⟩ :
          ExtXMedia).media_type ≠ MediaType.subtitles →
      (⟨MediaType.closedCaptions, some ⟨"u".data⟩, ⟨"g".data⟩, none, none, ⟨"n".data⟩,
        YesOrNo.no, YesOrNo.no, none, some ⟨"CC1".data⟩, none, none⟩ :
          ExtXMedia).forced = none) :=
  claim7_media_cc_invariant
    "#EXT-X-MEDIA:TYPE=CLOSED-CAPTIONS,URI=\"u\",GROUP-ID=\"g\",NAME=\"n\",INSTREAM-ID=\"CC1\"".data
    _ (by decide)

/-- Claim C8: `ExtXTargetDuration` serializes only the whole seconds, so
re-parsing the serialized form yields `Duration::from_secs(secs)`, and
the round trip is the identity exactly when the nanosecond remainder is
zero. -/
theorem claim8_target_duration_truncation (t : Duration) (h : t.secs < 2 ^ 64) :
    extXTargetDurationFromStr (extXTargetDurationChars ⟨t⟩) = some ⟨⟨t.secs, 0⟩⟩ ∧
      (extXTargetDurationFromStr (extXTargetDurationChars ⟨t⟩) = some ⟨t⟩ ↔
        t.nanos = 0) := by
  obtain ⟨secs, nanos⟩ := t
  have hparse : extXTargetDurationFromStr (extXTargetDurationChars ⟨⟨secs, nanos⟩⟩) =
      some ⟨⟨secs, 0⟩⟩ := by
    show extXTargetDurationFromStr ("#EXT-X-TARGETDURATION:".data ++ natChars secs) = _
    rw [extXTargetDurationFromStr, stripHead?_append, Option.some_bind,
      parseU64_natChars secs h]
    rfl
  refine ⟨hparse, ?_⟩
  rw [hparse]
  simp [Duration.mk.injEq, ExtXTargetDuration.mk.injEq, eq_comm]

/-- Witness for claim C8: a duration with half a second of nanosecond
remainder re-parses with the remainder dropped. -/
theorem claim8_target_duration_truncation_witness :
    extXTargetDurationFromStr (extXTargetDurationChars ⟨⟨3, 500000000⟩⟩) =
      some ⟨⟨3, 0⟩⟩ ∧
      (extXTargetDurationFromStr (extXTargetDurationChars ⟨⟨3, 500000000⟩⟩) =
        some ⟨⟨3, 500000000⟩⟩ ↔ (500000000 : Nat) = 0) :=
  claim8_target_duration_truncation ⟨3, 500000000⟩ (by norm_num)

/-- Claim C9: `ExtXProgramDateTime::from_str` succeeds on exactly the
strings starting with `#EXT-X-PROGRAM-DATE-TIME:`, storing the entire
remainder verbatim (the empty remainder included) with no validation. -/
theorem claim9_program_date_time :
    (∀ r : List Char,
      extXProgramDateTimeFromStr ("#EXT-X-PROGRAM-DATE-TIME:".data ++ r) = some ⟨r⟩) ∧
    ∀ s : List Char, "#EXT-X-PROGRAM-DATE-TIME:".data.isPrefixOf s = false →
      extXProgramDateTimeFromStr s = none := by
  constructor
  · intro r
    rw [extXProgramDateTimeFromStr, stripHead?_append]
    rfl
  · intro s hs
    rw [extXProgramDateTimeFromStr, stripHead?, if_neg (by simp [hs])]
    rfl

/-- Witness for claim C9: success with the remainder stored verbatim, and
failure on a line without the head. -/
theorem claim9_program_date_time_witness :
    extXProgramDateTimeFromStr ("#EXT-X-PROGRAM-DATE-TIME:".data ++ "2019".data) =
      some ⟨"2019".data⟩ ∧
    extXProgramDateTimeFromStr "#EXTM3U".data = none :=
  ⟨claim9_program_date_time.1 "2019".data,
    claim9_program_date_time.2 "#EXTM3U".data (by decide)⟩

/-- Claim C10: `ExtInf::from_str` splits the body at the first comma
only — the duration is the part before it parsed as a float, the title
is the entire remainder (which may itself contain commas) — and the
serializer writes the title back verbatim after a single comma (the
serialized duration contains no comma). -/
theorem claim10_extinf_first_comma :
    (∀ pre post : List Char, ',' ∉ pre →
      extInfFromStr ("#EXTINF:".data ++ (pre ++ ',' :: post)) =
        (parseExtInfDuration pre).bind fun dur =>
          (m3u8New post).map fun title => ⟨dur, some title⟩) ∧
    (∀ (d : Duration) (t : M3u8String),
      extInfChars ⟨d, some t⟩ =
        "#EXTINF:".data ++ durationDecimalChars d ++ ',' :: t.cs) ∧
    ∀ d : Duration, ',' ∉ durationDecimalChars d := by
  refine ⟨?_, fun d t => rfl, durationDecimalChars_no_comma⟩
  intro pre post hc
  rw [extInfFromStr, stripHead?_append, Option.some_bind, splitOnceAt_append hc post]

/-- Witness for claim C10: a title containing commas survives the parse
whole. -/
theorem claim10_extinf_first_comma_witness :
    extInfFromStr ("#EXTINF:".data ++ ("6".data ++ ',' :: "a,b".data)) =
      (parseExtInfDuration "6".data).bind fun dur =>
        (m3u8New "a,b".data).map fun title => ⟨dur, some title⟩ :=
  claim10_extinf_first_comma.1 "6".data "a,b".data (by decide)

end M3u8
